import Mathlib

/-!
Verification of the review-collection and analysis-orchestration engine of the
Revuze browser extension (review_extension/ and the unnamed content-script
variants).  Each JavaScript function that a claim depends on is shallowly
embedded as an executable Lean definition; JS numbers are modelled as exact
rationals, JS strings as Lean strings, and the DOM as explicit data passed to
the functions.
-/

namespace Revuze

/-! ### JS string primitives

`leadsWith pat s` models `String.prototype.startsWith`; `hasSubstr` models
`String.prototype.includes`; `collapseWsAux` models `replace(/\s+/g, ' ')`
(each maximal whitespace run becomes one space); `jsTrim` models `trim()`.
Whitespace is modelled by `Char.isWhitespace` (space, tab, CR, LF). -/

def leadsWith : List Char → List Char → Bool
  | [], _ => true
  | _ :: _, [] => false
  | a :: as, b :: bs => a == b && leadsWith as bs

def hasSubstr (pat : List Char) : List Char → Bool
  | [] => pat.isEmpty
  | c :: t => leadsWith pat (c :: t) || hasSubstr pat t

def strIncludes (hay pat : String) : Bool := hasSubstr pat.toList hay.toList

def strStarts (s pre : String) : Bool := leadsWith pre.toList s.toList

def collapseWsAux : Bool → List Char → List Char
  | _, [] => []
  | inRun, c :: cs =>
    if c.isWhitespace then
      if inRun then collapseWsAux true cs
      else ' ' :: collapseWsAux true cs
    else c :: collapseWsAux false cs

def dropTrailWs (l : List Char) : List Char :=
  ((l.reverse.dropWhile Char.isWhitespace)).reverse

def jsTrim (s : String) : String :=
  String.mk (dropTrailWs (s.toList.dropWhile Char.isWhitespace))

def collapseWs (s : String) : String :=
  jsTrim (String.mk (collapseWsAux false s.toList))

/-! ### Static selector configuration

Literal selector lists from content_script.js (basic variant) and from the
enhanced content-script variants (src/unnamed/part_001 and part_002). -/

def AMAZON_REVIEW_TEXT_SELECTORS : List String :=
  ["span[data-hook=\"review-body\"]",
   "div.review-text-content span",
   "div[data-hook=\"review-collapsed\"]",
   ".review-text-content span",
   ".cr-original-review-text",
   "[data-hook=\"review-body\"] > span"]

def AMAZON_REVIEW_TEXT_SELECTORS_BASIC : List String :=
  ["span[data-hook=\"review-body\"]",
   "div.review-text-content span",
   "div[data-hook=\"review-collapsed\"]",
   ".review-text-content span"]

def FLIPKART_REVIEW_TEXT_SELECTORS : List String :=
  ["div.t-ZTKy div div",
   "div.t-ZTKy",
   "div._6K-7Co"]

def AMAZON_LOAD_MORE_SELECTORS : List String :=
  ["[data-hook=\"see-all-reviews-link-foot\"]",
   "a[data-hook=\"see-all-reviews-link\"]",
   "[data-hook=\"reviews-medley-footer\"] a",
   ".a-pagination .a-last a",
   "a[aria-label=\"Next page\"]"]

/-- Alternatives of the metadata-exclusion regex
`/^(Verified Purchase|Top Contributor|Vine Customer|Color:|Size:|Style:)/`
used by the enhanced scrapers (part_001, part_002). -/
def metadataHeads : List String :=
  ["Verified Purchase", "Top Contributor", "Vine Customer",
   "Color:", "Size:", "Style:"]

/-- `text.match(/^(...)/) !== null` for the enhanced scrapers. -/
def isMetadata (s : String) : Bool := metadataHeads.any (fun p => strStarts s p)

/-! ### Document model

A document is modelled, for the extractor, by the map from a CSS selector to
the `innerText` of each element that `document.querySelectorAll` returns for
it, in document order. -/

def DocMap : Type := List (String × List String)

/-- `document.querySelectorAll(sel)` projected to the element texts. -/
def qAll (doc : DocMap) (sel : String) : List String :=
  match doc.find? (fun p => p.1 == sel) with
  | some p => p.2
  | none => []

/-- Selector list chosen from the hostname
(`hostname.includes("amazon") ? ... : hostname.includes("flipkart") ? ... : []`),
shared shape of every content-script variant. -/
def selectorsFor (amazonSels : List String) (hostname : String) : List String :=
  if strIncludes hostname ("amazon") then amazonSels
  else if strIncludes hostname ("flipkart") then FLIPKART_REVIEW_TEXT_SELECTORS
  else []

/-! ### Extractor, enhanced variant (src/unnamed/part_002 lines 93-126,
identical in part_001 lines 79-112)

State of the loop body: the `reviews` array and the `seenTexts` set. -/

structure ScrapeState where
  reviews : List String
  seen : List String

/-- Body of the `elements.forEach(el => ...)` callback of the enhanced
`scrapeReviewsFromPage`: trim, collapse whitespace, then skip empty, short,
already-seen and metadata-prefixed texts. -/
def procElem (st : ScrapeState) (raw : String) : ScrapeState :=
  let t0 := jsTrim raw
  if t0 = "" then st
  else
    let text := collapseWs t0
    if text.length < 20 ∨ st.seen.contains text then st
    else if isMetadata text then st
    else ⟨st.reviews ++ [text], text :: st.seen⟩

/-- Enhanced `scrapeReviewsFromPage` (src/unnamed/part_002 lines 93-126). -/
def scrapeReviewsFromPage (hostname : String) (doc : DocMap) : List String :=
  ((selectorsFor AMAZON_REVIEW_TEXT_SELECTORS hostname).foldl
    (fun st sel => (qAll doc sel).foldl procElem st) ⟨[], []⟩).reviews

/-! ### Extractor, basic variant (src/review_extension/content_script.js
lines 19-36): only trims and deduplicates; no length filter, no whitespace
collapsing, no metadata exclusion. -/

def procElemBasic (reviews : List String) (raw : String) : List String :=
  let text := jsTrim raw
  if text ≠ "" ∧ ¬ reviews.contains text then reviews ++ [text] else reviews

/-- Basic `scrapeReviewsFromPage` (src/review_extension/content_script.js). -/
def scrapeReviewsFromPageBasic (hostname : String) (doc : DocMap) : List String :=
  (selectorsFor AMAZON_REVIEW_TEXT_SELECTORS_BASIC hostname).foldl
    (fun acc sel => (qAll doc sel).foldl procElemBasic acc) []

/-! ### Invariants of the enhanced extractor (claim C4) -/

/-- Loop invariant of the enhanced scraper: the review list is duplicate-free,
matches the seen-set in membership, and every collected review is at least 20
units long and not metadata-prefixed. -/
def GoodState (st : ScrapeState) : Prop :=
  st.reviews.Nodup ∧ (∀ x, x ∈ st.reviews ↔ x ∈ st.seen) ∧
    ∀ x ∈ st.reviews, 20 ≤ x.length ∧ isMetadata x = false

theorem goodState_procElem {st : ScrapeState} (h : GoodState st) (raw : String) :
    GoodState (procElem st raw) := by
  obtain ⟨hnd, hiff, hlen⟩ := h
  unfold procElem
  dsimp only
  split
  · exact ⟨hnd, hiff, hlen⟩
  · split
    · exact ⟨hnd, hiff, hlen⟩
    · split
      · exact ⟨hnd, hiff, hlen⟩
      · rename_i hempty hshort hmeta
        rw [not_or] at hshort
        obtain ⟨hshort, hseen⟩ := hshort
        have hmem : collapseWs (jsTrim raw) ∉ st.seen := fun hm => hseen (by simpa using hm)
        have hmemr : collapseWs (jsTrim raw) ∉ st.reviews := fun hx => hmem ((hiff _).mp hx)
        refine ⟨?_, ?_, ?_⟩
        · simp [List.nodup_append, hnd, hmemr]
        · intro x
          simp only [List.mem_append, List.mem_singleton, List.mem_cons]
          have hx := hiff x
          tauto
        · intro x hx
          simp only [List.mem_append, List.mem_singleton] at hx
          rcases hx with hx | rfl
          · exact hlen x hx
          · refine ⟨by omega, ?_⟩
            cases hM : isMetadata (collapseWs (jsTrim raw))
            · rfl
            · exact absurd hM (by simpa using hmeta)

theorem goodState_foldl_procElem {st : ScrapeState} (h : GoodState st)
    (l : List String) : GoodState (l.foldl procElem st) := by
  induction l generalizing st with
  | nil => exact h
  | cons a t ih => exact ih (goodState_procElem h a)

theorem goodState_foldl_selectors {st : ScrapeState} (h : GoodState st)
    (sels : List String) (doc : DocMap) :
    GoodState (sels.foldl (fun st sel => (qAll doc sel).foldl procElem st) st) := by
  induction sels generalizing st with
  | nil => exact h
  | cons s t ih => exact ih (goodState_foldl_procElem h (qAll doc s))

theorem nodup_procElemBasic {reviews : List String} (h : reviews.Nodup) (raw : String) :
    (procElemBasic reviews raw).Nodup := by
  unfold procElemBasic
  dsimp only
  split
  · rename_i hc
    have : jsTrim raw ∉ reviews := fun hm => hc.2 (by simpa using hm)
    simp [List.nodup_append, h, this]
  · exact h

theorem nodup_foldl_procElemBasic {reviews : List String} (h : reviews.Nodup)
    (l : List String) : (l.foldl procElemBasic reviews).Nodup := by
  induction l generalizing reviews with
  | nil => exact h
  | cons a t ih => exact ih (nodup_procElemBasic h a)

theorem nodup_foldl_selectors_basic {reviews : List String} (h : reviews.Nodup)
    (sels : List String) (doc : DocMap) :
    (sels.foldl (fun acc sel => (qAll doc sel).foldl procElemBasic acc) reviews).Nodup := by
  induction sels generalizing reviews with
  | nil => exact h
  | cons s t ih => exact ih (nodup_foldl_procElemBasic h (qAll doc s))

/-- C4 (amended): for every hostname and document, the enhanced Extractor
(src/unnamed/part_002 `scrapeReviewsFromPage`) returns a sequence with no
duplicate strings, no string shorter than 20 units after whitespace
collapsing, and no string matched at its start by the metadata-exclusion
pattern; the basic Extractor (content_script.js) guarantees only
deduplication of the trimmed texts. -/
theorem c4_extractor_invariants (hostname : String) (doc : DocMap) :
    (scrapeReviewsFromPage hostname doc).Nodup ∧
      (∀ x ∈ scrapeReviewsFromPage hostname doc, 20 ≤ x.length ∧ isMetadata x = false) ∧
      (scrapeReviewsFromPageBasic hostname doc).Nodup := by
  have h0 : GoodState ⟨[], []⟩ := ⟨List.nodup_nil, by simp, by simp⟩
  have h := goodState_foldl_selectors h0 (selectorsFor AMAZON_REVIEW_TEXT_SELECTORS hostname) doc
  exact ⟨h.1, h.2.2, nodup_foldl_selectors_basic List.nodup_nil _ doc⟩

/-- Document consisting of a single Amazon review element whose text is the
5-character string "Nice!". -/
def docShort : DocMap := [("span[data-hook=\"review-body\"]", ["Nice!"])]

/-- C4 (counterexample): on a recognized site, the basic Extractor of
content_script.js outputs the 5-character string "Nice!", which is shorter
than the 20-unit minimum the claim asserts for Extractor output. -/
theorem c4_counterexample :
    "Nice!" ∈ scrapeReviewsFromPageBasic ("www.amazon.in") docShort ∧
      ("Nice!" : String).length < 20 := by
  decide

/-! ### Analysis result payload (popup.js)

Fields the popup reads from a done job; every field the JS guards with
`|| 0`, `|| {}` or `|| []` is modelled as an `Option`, with the JS default
applied by the accessor functions below. -/

structure SentimentData where
  positive : Option ℚ
  neutral : Option ℚ
  negative : Option ℚ
deriving DecidableEq

structure CategoryEntry where
  name : String
  rating : ℚ
  count : Option ℚ
  sentiment_score : ℚ
deriving DecidableEq

structure Keyword where
  term : String
deriving DecidableEq

structure AnalysisResult where
  sentiment : Option SentimentData
  n_reviews : Option ℚ
  category_breakdown : Option (List CategoryEntry)
  top_positive : Option (List Keyword)
  top_negative : Option (List Keyword)
deriving DecidableEq

/-- `(data.sentiment || {}).positive || 0`. -/
def sentPos (d : AnalysisResult) : ℚ := (d.sentiment.bind (·.positive)).getD 0

/-- `(data.sentiment || {}).negative || 0`. -/
def sentNeg (d : AnalysisResult) : ℚ := (d.sentiment.bind (·.negative)).getD 0

/-- `data.n_reviews || 0`. -/
def nReviews (d : AnalysisResult) : ℚ := d.n_reviews.getD 0

/-- `data.category_breakdown`, empty when absent. -/
def catList (d : AnalysisResult) : List CategoryEntry := d.category_breakdown.getD []

/-! ### Purchase confidence (popup.js renderPurchaseConfidence, lines 90-146) -/

/-- The `confidenceScore` computation of `renderPurchaseConfidence`. -/
def confidenceScore (d : AnalysisResult) : ℚ :=
  let positiveRatio := sentPos d
  let negativeRatio := sentNeg d
  let nRev := nReviews d
  let s1 := 50 + (positiveRatio - negativeRatio) * 40
  let volumeBonus := min (nRev / 50) 1 * 20
  let s2 := s1 + volumeBonus
  let s3 :=
    if catList d ≠ [] then
      let avgCategoryRating := ((catList d).map (·.rating)).sum / ((catList d).length : ℚ)
      s2 + (avgCategoryRating - 3) * 10
    else s2
  let balance := 1 - |positiveRatio - negativeRatio|
  let s4 := s3 + balance * 10
  max 0 (min 100 s4)

/-- The label chain of `renderPurchaseConfidence` (lines 125-133). -/
def confidenceLabel (s : ℚ) : String :=
  if s ≥ 80 then "High Confidence"
  else if s ≥ 60 then "Good Confidence"
  else if s ≥ 40 then "Moderate Risk"
  else "High Risk"

/-- The claim formula, written from the spec: clamp(0,100, 50 + 40(p-n) +
20 min(nReviews/50, 1) + 10(meanCategoryRating-3) + 10(1-abs(p-n))). -/
def specPurchaseConfidence (d : AnalysisResult) : ℚ :=
  let p := sentPos d
  let n := sentNeg d
  let nr := nReviews d
  let mean := ((catList d).map (·.rating)).sum / ((catList d).length : ℚ)
  max 0 (min 100
    (50 + 40 * (p - n) + 20 * min (nr / 50) 1 + 10 * (mean - 3) + 10 * (1 - |p - n|)))

/-- C5: for every AnalysisResult whose category breakdown is non-empty (so
that the claim's meanCategoryRating term is defined), the computed purchase
confidence equals the claimed clamp formula, and the label is determined by
the claimed thresholds 80 / 60 / 40. -/
theorem c5_purchase_confidence (d : AnalysisResult) :
    (catList d ≠ [] → confidenceScore d = specPurchaseConfidence d) ∧
      (80 ≤ confidenceScore d → confidenceLabel (confidenceScore d) = "High Confidence") ∧
      (60 ≤ confidenceScore d → confidenceScore d < 80 →
        confidenceLabel (confidenceScore d) = "Good Confidence") ∧
      (40 ≤ confidenceScore d → confidenceScore d < 60 →
        confidenceLabel (confidenceScore d) = "Moderate Risk") ∧
      (confidenceScore d < 40 → confidenceLabel (confidenceScore d) = "High Risk") := by
  refine ⟨?_, ?_, ?_, ?_, ?_⟩
  · intro h
    unfold confidenceScore specPurchaseConfidence
    simp only [if_pos h]
    ring_nf
  all_goals
    intros <;> unfold confidenceLabel <;> split_ifs <;> first | rfl | linarith

/-- Concrete payload for the C5 witness: all-positive sentiment, 50 reviews,
one category rated 4. -/
def ex5 : AnalysisResult :=
  { sentiment := some ⟨some 1, some 0, some 0⟩
    n_reviews := some 50
    category_breakdown := some [⟨"battery", 4, some 1, 0⟩]
    top_positive := none
    top_negative := none }

theorem ex5_cat_ne : catList ex5 ≠ [] := by simp [catList, ex5]

theorem confidenceScore_ex5 : confidenceScore ex5 = 100 := by
  norm_num [confidenceScore, sentPos, sentNeg, nReviews, catList, ex5]

theorem ex5_ge80 : (80 : ℚ) ≤ confidenceScore ex5 := by
  rw [confidenceScore_ex5]; norm_num

/-- C5 witness: the purchase-confidence characterization evaluated at a
concrete payload with a non-empty category breakdown. -/
theorem c5_witness :
    confidenceScore ex5 = specPurchaseConfidence ex5 ∧
      confidenceLabel (confidenceScore ex5) = "High Confidence" :=
  ⟨(c5_purchase_confidence ex5).1 ex5_cat_ne, (c5_purchase_confidence ex5).2.1 ex5_ge80⟩

/-! ### Category view (popup.js renderCategoryBreakdown, lines 239-304) -/

structure CategoryView where
  name : String
  score : ℚ
  count : Option ℚ
  sentiment : String
deriving DecidableEq

/-- Sentiment class of a real category entry:
`cat.sentiment_score >= 0.1 ? 'positive' : cat.sentiment_score <= -0.1 ?
'negative' : 'neutral'`. -/
def catSentimentClass (ss : ℚ) : String :=
  if ss ≥ 1/10 then "positive" else if ss ≤ -(1/10) then "negative" else "neutral"

/-- The three fixed fallback categories with their base scores. -/
def mockCategories : List (String × ℚ) :=
  [("Overall Quality", 7/2), ("Value for Money", 16/5), ("User Experience", 3)]

/-- The category list `renderCategoryBreakdown` builds before rendering. -/
def renderCategoryBreakdown (d : AnalysisResult) : List CategoryView :=
  if catList d ≠ [] then
    (catList d).map (fun cat =>
      { name := cat.name, score := cat.rating, count := cat.count,
        sentiment := catSentimentClass cat.sentiment_score })
  else
    let adjustment := sentPos d * (3/2) - sentNeg d * (3/2)
    mockCategories.map (fun cat =>
      let adjustedScore := max 1 (min 5 (cat.2 + adjustment))
      { name := cat.1, score := adjustedScore, count := none,
        sentiment := if adjustedScore ≥ 7/2 then "positive"
          else if adjustedScore ≥ 5/2 then "neutral" else "negative" })

/-- Rating-threshold classifier the claim asserts for real entries
(≥ 3.5 positive, ≥ 2.5 neutral, else negative), written from the spec. -/
def specRatingClass (r : ℚ) : String :=
  if 7/2 ≤ r then "positive" else if 5/2 ≤ r then "neutral" else "negative"

/-- Sentiment-score classifier of the amended claim, written from its words:
at least 0.1 is positive, at most -0.1 is negative, otherwise neutral. -/
def specSentimentClass (ss : ℚ) : String :=
  if ss ≤ -(1/10) then "negative" else if 1/10 ≤ ss then "positive" else "neutral"

/-- Category view as the claim literally states it: each real entry classed
by rating thresholds. -/
def claimCategoryView (d : AnalysisResult) : List CategoryView :=
  if catList d ≠ [] then
    (catList d).map (fun cat =>
      { name := cat.name, score := cat.rating, count := cat.count,
        sentiment := specRatingClass cat.rating })
  else
    let adjustment := sentPos d * (3/2) - sentNeg d * (3/2)
    mockCategories.map (fun cat =>
      let adjustedScore := max 1 (min 5 (cat.2 + adjustment))
      { name := cat.1, score := adjustedScore, count := none,
        sentiment := specRatingClass adjustedScore })

/-- Category view of the amended claim: real entries classed by the
sentiment-score thresholds, fallback entries by the rating thresholds. -/
def specCategoryView (d : AnalysisResult) : List CategoryView :=
  if catList d ≠ [] then
    (catList d).map (fun cat =>
      { name := cat.name, score := cat.rating, count := cat.count,
        sentiment := specSentimentClass cat.sentiment_score })
  else
    let adjustment := sentPos d * (3/2) - sentNeg d * (3/2)
    mockCategories.map (fun cat =>
      let adjustedScore := max 1 (min 5 (cat.2 + adjustment))
      { name := cat.1, score := adjustedScore, count := none,
        sentiment := specRatingClass adjustedScore })

theorem catSentimentClass_eq_spec (ss : ℚ) :
    catSentimentClass ss = specSentimentClass ss := by
  unfold catSentimentClass specSentimentClass
  split_ifs <;> first | rfl | linarith

theorem ratingIf_eq_spec (r : ℚ) :
    (if r ≥ 7/2 then "positive" else if r ≥ 5/2 then "neutral" else "negative") =
      specRatingClass r := by
  unfold specRatingClass
  split_ifs <;> first | rfl | linarith

/-- C3 (amended): for every AnalysisResult, the category view maps each real
entry to score = rating with sentimentClass given by the sentiment-score
thresholds (≥ 0.1 positive, ≤ -0.1 negative, else neutral), and when the
breakdown is empty produces the three fixed placeholder categories, adjusted
by the overall sentiment skew and classed by the rating thresholds. -/
theorem c3_category_view (d : AnalysisResult) :
    renderCategoryBreakdown d = specCategoryView d := by
  unfold renderCategoryBreakdown specCategoryView
  split_ifs with h
  · refine List.map_congr_left (fun c _ => ?_)
    rw [catSentimentClass_eq_spec]
  · refine List.map_congr_left (fun c _ => ?_)
    dsimp only
    rw [ratingIf_eq_spec]

/-- Payload for the C3 counterexample: one category rated 5 with a strongly
negative sentiment score. -/
def dC3 : AnalysisResult :=
  { sentiment := none, n_reviews := none,
    category_breakdown := some [⟨"battery", 5, some 10, -1⟩],
    top_positive := none, top_negative := none }

/-- C3 (counterexample): a category rated 5 with sentiment score -1 is
classed "negative" by the code but "positive" by the claim's
rating-threshold rule, so the view differs from the claimed one. -/
theorem c3_counterexample : renderCategoryBreakdown dC3 ≠ claimCategoryView dC3 := by
  have hcode : renderCategoryBreakdown dC3 = [⟨"battery", 5, some 10, "negative"⟩] := by
    norm_num [renderCategoryBreakdown, catList, dC3, catSentimentClass]
  have hclaim : claimCategoryView dC3 = [⟨"battery", 5, some 10, "positive"⟩] := by
    norm_num [claimCategoryView, catList, dC3, specRatingClass]
  rw [hcode, hclaim]
  simp

/-! ### Authenticity score and trust indicators
(popup.js renderAuthenticityScore, lines 148-185) -/

/-- The deterministic `authenticityScore` computation (lines 149-170). -/
def authenticityScore (d : AnalysisResult) : ℚ :=
  let nRev := nReviews d
  let a0 : ℚ := 75
  let a1 := if nRev < 5 then a0 - 20 else if nRev > 100 then a0 + 10 else a0
  let isExtreme := sentPos d > 9/10 ∨ sentNeg d > 9/10
  let a2 := if isExtreme ∧ nRev > 20 then a1 - 15 else a1
  let categoriesFound := (catList d).length
  let a3 := if categoriesFound ≥ 3 then a2 + 10
    else if categoriesFound = 0 then a2 - 10 else a2
  let totalKeywords := (d.top_positive.getD []).length + (d.top_negative.getD []).length
  let a4 := if totalKeywords ≥ 15 then a3 + 5 else a3
  max 30 (min 95 a4)

/-- Class of one trust indicator as a function of the `Math.random()` draw
`r` used for it: `score = r*30 + 70`, then high / medium / low by the 80 and
60 thresholds (lines 177-184). -/
def indicatorClass (r : ℚ) : String :=
  let score := r * 30 + 70
  if score ≥ 80 then "high" else if score ≥ 60 then "medium" else "low"

/-- Output of `renderAuthenticityScore` as a function of the payload, the
sequence of `Math.random()` draws, and the number of `.indicator` elements:
the displayed trust percentage together with the indicator classes. -/
def renderAuthenticityScore (d : AnalysisResult) (rand : Nat → ℚ) (numIndicators : Nat) :
    ℚ × List String :=
  (authenticityScore d, (List.range numIndicators).map (fun i => indicatorClass (rand i)))

theorem indicatorClass_zero : indicatorClass 0 = "medium" := by
  norm_num [indicatorClass]

theorem indicatorClass_third : indicatorClass (1/3) = "high" := by
  norm_num [indicatorClass]

/-- Payload used to exhibit the nondeterminism of the authenticity rendering. -/
def dC1 : AnalysisResult :=
  { sentiment := some ⟨some (1/2), some (1/4), some (1/4)⟩, n_reviews := some 10,
    category_breakdown := none, top_positive := none, top_negative := none }

/-- C1 (violation): rendering the authenticity panel twice for the same
AnalysisResult can produce different trust-indicator classes, because the
indicator class is computed from a fresh `Math.random()` draw; with draw 0
the indicator is "medium", with draw 1/3 it is "high". The spec (section 9)
explicitly flags this randomness as a defect, so the claim is right and the
code is wrong. -/
theorem c1_trust_indicators_random :
    renderAuthenticityScore dC1 (fun _ => 0) 1 ≠
      renderAuthenticityScore dC1 (fun _ => 1/3) 1 := by
  intro h
  have h2 := congrArg Prod.snd h
  simp only [renderAuthenticityScore] at h2
  rw [show List.range 1 = [0] from rfl] at h2
  simp only [List.map_cons, List.map_nil,
    indicatorClass_zero, indicatorClass_third, List.cons.injEq, and_true] at h2
  exact absurd h2 (by decide)

/-! ### Job polling (popup.js pollForResults lines 380-416 and
popup-simple.js pollForResults lines 118-142)

Both loops have the same skeleton: `for (attempt = 1; attempt <= maxAttempts;
attempt++) { try { one request; ... } catch (err) { if (attempt ===
maxAttempts) throw err; await delay; } }` followed by a timeout throw.
Each awaited suspension is an explicit trace event, so one request per loop
iteration is recorded and a `wait` separates consecutive requests; because
the loop awaits each request before issuing the next, no two requests are
ever in flight concurrently, which the sequential trace renders directly. -/

/-- Body of a job-status response: `{ status, error: { message } }`. -/
structure JobResp where
  status : String
  errorMessage : Option String
deriving DecidableEq

/-- Outcome of one `fetch` of the results endpoint: a rejected promise
(network error) or an HTTP response with a status code and parsed body. -/
inductive FetchOut where
  | netErr (msg : String)
  | http (status : Nat) (body : JobResp)
deriving DecidableEq

/-- What one iteration's try block does after the fetch resolves: return a
final result, throw, or fall through to the next attempt. -/
inductive TryOut where
  | ret (r : JobResp)
  | thrown (msg : String)
  | cont
deriving DecidableEq

/-- Final result of a poll loop. -/
inductive PollOutcome where
  | success (r : JobResp)
  | failure (msg : String)
deriving DecidableEq

/-- Observable events of a poll loop: one `request` per fetch, one `wait`
per awaited delay. -/
inductive PollEv where
  | request (attempt : Nat)
  | wait (ms : Nat)
deriving DecidableEq

/-- Try-block of popup.js `pollForResults`: non-2xx throws; body status
"done" returns the body; body status "error" throws the service-supplied
detail (`result.error?.message || 'Analysis job failed'`); anything else
(i.e. "pending") falls through to the delay. -/
def tryStep : FetchOut → TryOut
  | .netErr m => .thrown m
  | .http status body =>
    if ¬ (200 ≤ status ∧ status < 300) then .thrown ("Failed to get results: " ++ toString status)
    else if body.status = "done" then .ret body
    else if body.status = "error" then .thrown (body.errorMessage.getD ("Analysis job failed"))
    else .cont

/-- Try-block of popup-simple.js `pollForResults`: any 2xx returns the parsed
body immediately; 202 would fall through to the delay; any other status
throws. -/
def simpleTryStep : FetchOut → TryOut
  | .netErr m => .thrown m
  | .http status body =>
    if 200 ≤ status ∧ status < 300 then .ret body
    else if status = 202 then .cont
    else .thrown ("Results polling failed: " ++ toString status)

/-- The shared polling loop. `fuel` counts the remaining loop iterations
(initially `maxAttempts`) and `attempt` is the 1-based attempt counter; a
`thrown` outcome is rethrown on the final attempt and otherwise swallowed by
the catch block, which waits and retries. -/
def pollLoop (step : Nat → TryOut) (maxAttempts delayMs : Nat) (timeoutMsg : String) :
    Nat → Nat → PollOutcome × List PollEv
  | 0, _ => (.failure timeoutMsg, [])
  | fuel + 1, attempt =>
    match step attempt with
    | .ret r => (.success r, [.request attempt])
    | .thrown m =>
      if attempt = maxAttempts then (.failure m, [.request attempt])
      else
        let rest := pollLoop step maxAttempts delayMs timeoutMsg fuel (attempt + 1)
        (rest.1, .request attempt :: .wait delayMs :: rest.2)
    | .cont =>
      let rest := pollLoop step maxAttempts delayMs timeoutMsg fuel (attempt + 1)
      (rest.1, .request attempt :: .wait delayMs :: rest.2)

/-- popup.js `pollForResults(jobId, maxAttempts = 30, delay = 1000)`. -/
def pollForResults (f : Nat → FetchOut) : PollOutcome × List PollEv :=
  pollLoop (fun k => tryStep (f k)) 30 1000 ("Analysis timed out - please try again") 30 1

/-- popup-simple.js `pollForResults(jobId, maxAttempts = 30)` with its fixed
2000 ms delay. -/
def pollForResultsSimple (f : Nat → FetchOut) : PollOutcome × List PollEv :=
  pollLoop (fun k => simpleTryStep (f k)) 30 2000 ("Analysis timed out") 30 1

/-- Number of `request` events in a trace. -/
def requestCount (tr : List PollEv) : Nat :=
  tr.countP (fun e => match e with | .request _ => true | _ => false)

/-- Trace of a run whose every attempt falls through to the delay: request,
wait, request, wait, ... -/
def pendingTrace (delayMs : Nat) : Nat → Nat → List PollEv
  | _, 0 => []
  | a, n + 1 => .request a :: .wait delayMs :: pendingTrace delayMs (a + 1) n

theorem requestCount_pendingTrace (delayMs a n : Nat) :
    requestCount (pendingTrace delayMs a n) = n := by
  induction n generalizing a with
  | zero => rfl
  | succ k ih => simp [pendingTrace, requestCount, List.countP_cons] at ih ⊢; exact ih _

theorem pollLoop_all_cont (step : Nat → TryOut) (maxAttempts delayMs : Nat)
    (timeoutMsg : String) (n a : Nat)
    (h : ∀ k, a ≤ k → k < a + n → step k = .cont) :
    pollLoop step maxAttempts delayMs timeoutMsg n a =
      (.failure timeoutMsg, pendingTrace delayMs a n) := by
  induction n generalizing a with
  | zero => rfl
  | succ m ih =>
    have hs : step a = .cont := h a le_rfl (by omega)
    rw [pollLoop, hs]
    rw [ih (a + 1) (fun k hk1 hk2 => h k (by omega) (by omega))]
    rfl

/-- C6: for every job whose status endpoint answers HTTP 200 with body
status "pending" on every attempt, popup.js pollForResults performs exactly
30 requests — each consecutive pair separated by a wait of the fixed
1000 ms delay, and strictly sequential since each request is awaited before
the next is issued — and then fails with the timeout error. -/
theorem c6_all_pending_timeout (f : Nat → FetchOut)
    (h : ∀ k, 1 ≤ k → k ≤ 30 → f k = .http 200 ⟨"pending", none⟩) :
    pollForResults f =
      (.failure ("Analysis timed out - please try again"), pendingTrace 1000 1 30) ∧
      requestCount (pollForResults f).2 = 30 := by
  have hmain : pollForResults f =
      (.failure ("Analysis timed out - please try again"), pendingTrace 1000 1 30) := by
    unfold pollForResults
    refine pollLoop_all_cont _ 30 1000 _ 30 1 (fun k hk1 hk2 => ?_)
    rw [h k hk1 (by omega)]
    rfl
  refine ⟨hmain, ?_⟩
  rw [hmain]
  exact requestCount_pendingTrace 1000 1 30

/-- Constant all-pending status service for the C6 witness. -/
def fPending : Nat → FetchOut := fun _ => .http 200 ⟨"pending", none⟩

/-- C6 witness: the all-pending theorem evaluated at a concrete mock service. -/
theorem c6_witness :
    pollForResults fPending =
      (.failure ("Analysis timed out - please try again"), pendingTrace 1000 1 30) ∧
      requestCount (pollForResults fPending).2 = 30 :=
  c6_all_pending_timeout fPending (fun _ _ _ => rfl)

/-- Mock service for C2: the job reports status "error" with detail "boom"
on the first poll, and "pending" on every later poll. -/
def fErrOnce : Nat → FetchOut :=
  fun k => if k = 1 then .http 200 ⟨"error", some ("boom")⟩ else .http 200 ⟨"pending", none⟩

/-- C2 (violation): a job whose very first status response is terminal
status "error" is nevertheless retried — the `throw` for the error status is
caught by the loop's own catch block — so the loop performs all 30 requests
and ends in the generic timeout failure; the service-supplied detail "boom"
is never surfaced and the poll does not fail immediately. -/
theorem c2_error_status_retried :
    (pollForResults fErrOnce).1 = .failure ("Analysis timed out - please try again") ∧
      requestCount (pollForResults fErrOnce).2 = 30 := by
  constructor <;> decide

/-- C10: popup-simple.js pollForResults returns the parsed body of the first
response with any 2xx status as the final result after exactly one request,
whatever the body's own status field says; and its dedicated 202 branch is
unreachable, because a 202 response already satisfies `response.ok`. -/
theorem c10_simple_poll_returns_first_2xx (f : Nat → FetchOut) (s : Nat) (b : JobResp)
    (h2xx : 200 ≤ s ∧ s < 300) (hf : f 1 = .http s b) :
    pollForResultsSimple f = (.success b, [.request 1]) ∧
      (∀ s' b', simpleTryStep (.http s' b') ≠ .cont) := by
  constructor
  · have hstep : simpleTryStep (.http s b) = .ret b := by
      unfold simpleTryStep
      dsimp only
      rw [if_pos h2xx]
    unfold pollForResultsSimple
    rw [pollLoop, hf, hstep]
  · intro s' b'
    unfold simpleTryStep
    dsimp only
    split_ifs with h1 h2
    · simp
    · omega
    · simp

/-- C10 witness: a 202 response whose body still says "pending" is returned
as the final analysis result after a single request. -/
theorem c10_witness :
    pollForResultsSimple (fun _ => .http 202 ⟨"pending", none⟩) =
      (.success ⟨"pending", none⟩, [.request 1]) :=
  (c10_simple_poll_returns_first_2xx (fun _ => .http 202 ⟨"pending", none⟩) 202
    ⟨"pending", none⟩ (by omega) rfl).1

/-! ### Message relay (background.js lines 2-32)

The relay handles one "scrapeReviews" request from the popup: it queries the
active current-window tab and forwards the request to that tab's content
script.  `activeTabId` models `tabs[0]?.id`; `Forward` models the outcome of
`chrome.tabs.sendMessage` as seen in the callback (`failed` when
`chrome.runtime.lastError` is set, otherwise the possibly-absent response
object).  The list collects every `sendResponse` call the handler makes. -/

structure CollectionResult where
  reviews : List String
  error : Option String
deriving DecidableEq

inductive Forward where
  | failed (lastError : String)
  | delivered (resp : Option CollectionResult)

/-- Every response the background listener sends for one collection request. -/
def relayResponses (activeTabId : Option Nat) (fwd : Nat → Forward) :
    List CollectionResult :=
  match activeTabId with
  | none => [⟨[], some ("No active tab found.")⟩]
  | some tid =>
    match fwd tid with
    | .failed _ =>
      [⟨[], some ("Could not communicate with the page. Try reloading the tab.")⟩]
    | .delivered none => [⟨[], some ("No response from content script.")⟩]
    | .delivered (some r) => [r]

/-- C9: the relay produces exactly one response per collection request; with
no active tab, or when the forward fails (including a missing response
object from the content script), that response has an empty review list and
a descriptive error, and otherwise it is the tab's response verbatim. -/
theorem c9_relay_one_response (activeTabId : Option Nat) (fwd : Nat → Forward) :
    (relayResponses activeTabId fwd).length = 1 ∧
      (activeTabId = none →
        relayResponses activeTabId fwd = [⟨[], some ("No active tab found.")⟩]) ∧
      (∀ t e, activeTabId = some t → fwd t = .failed e →
        relayResponses activeTabId fwd =
          [⟨[], some ("Could not communicate with the page. Try reloading the tab.")⟩]) ∧
      (∀ t, activeTabId = some t → fwd t = .delivered none →
        relayResponses activeTabId fwd = [⟨[], some ("No response from content script.")⟩]) ∧
      (∀ t r, activeTabId = some t → fwd t = .delivered (some r) →
        relayResponses activeTabId fwd = [r]) := by
  refine ⟨?_, ?_, ?_, ?_, ?_⟩
  · cases activeTabId with
    | none => rfl
    | some tid =>
      cases h : fwd tid with
      | failed e => simp [relayResponses, h]
      | delivered o => cases o <;> simp [relayResponses, h]
  · rintro rfl; rfl
  · rintro t e rfl hf; simp [relayResponses, hf]
  · rintro t rfl hf; simp [relayResponses, hf]
  · rintro t r rfl hf; simp [relayResponses, hf]

/-- Concrete tab response for the C9 witness. -/
def r9 : CollectionResult := ⟨["This product works great and lasts long."], none⟩

/-- C9 witness: the relay theorem evaluated for a concrete active tab whose
content script answers with one review. -/
theorem c9_witness :
    (relayResponses (some 7) (fun _ => .delivered (some r9))).length = 1 ∧
      relayResponses (some 7) (fun _ => .delivered (some r9)) = [r9] :=
  ⟨(c9_relay_one_response (some 7) (fun _ => .delivered (some r9))).1,
    (c9_relay_one_response (some 7) (fun _ => .delivered (some r9))).2.2.2.2 7 r9 rfl rfl⟩

/-! ### Expander (src/unnamed/part_002 expandAndLoadMoreReviews, lines 29-90)

The DOM is modelled by a `PageState`: the live "read more" buttons
(`querySelectorAll('[data-hook="expand-collapse-content"]')`), the first
button each load-more selector resolves to, and the review text content.
Buttons carry a stable identity `bid` (the DOM element's identity), their
current text, class list and visibility (`offsetParent !== null`).  The
page's reaction to a click — any loading of new content, text changes,
button changes during the settle delay that follows — is an arbitrary
environment function `Env`; the class mutations performed by the expander
itself are explicit.  Every click is recorded in a log of `ClickEv`s, which
is what the at-most-once claim is about. -/

structure Button where
  bid : Nat
  text : String
  classes : List String
  visible : Bool
deriving DecidableEq

structure PageState where
  hostname : String
  readMore : List Button
  loadMore : List (String × Button)
  doc : DocMap

inductive ClickEv where
  | readMore (bid : Nat)
  | loadMore (bid : Nat)
deriving DecidableEq

def Env : Type := ClickEv → PageState → PageState

/-- Look up a live button by element identity. -/
def findButton (bs : List Button) (bid : Nat) : Option Button :=
  bs.find? (fun b => b.bid == bid)

/-- `document.querySelector(sel)` over the load-more table. -/
def lookupSel : List (String × Button) → String → Option Button
  | [], _ => none
  | p :: rest, sel => if p.1 == sel then some p.2 else lookupSel rest sel

/-- The `readMoreButtons.forEach` loop of one attempt: every button from the
current snapshot whose text still includes "Read more" is clicked; the
returned flag is `expandedAny`. -/
def clickReadMores (env : Env) : List Nat → PageState → List ClickEv →
    PageState × List ClickEv × Bool
  | [], st, log => (st, log, false)
  | bid :: rest, st, log =>
    match findButton st.readMore bid with
    | some b =>
      if strIncludes b.text ("Read more") then
        let res := clickReadMores env rest (env (.readMore bid) st) (log ++ [.readMore bid])
        (res.1, res.2.1, true)
      else clickReadMores env rest st log
    | none => clickReadMores env rest st log

/-- The load-more scan: the first selector whose button is visible and not
yet carrying the `clicked` marker class. -/
def findLoadMoreAux (lm : List (String × Button)) : List String → Option Button
  | [] => none
  | sel :: rest =>
    match lookupSel lm sel with
    | some b =>
      if b.visible && ¬ b.classes.contains ("clicked") then some b
      else findLoadMoreAux lm rest
    | none => findLoadMoreAux lm rest

def findLoadMore (st : PageState) : Option Button :=
  findLoadMoreAux st.loadMore AMAZON_LOAD_MORE_SELECTORS

/-- `loadMoreBtn.classList.add('clicked')`. -/
def markClicked (st : PageState) (bid : Nat) : PageState :=
  { st with loadMore := st.loadMore.map (fun p =>
      if p.2.bid == bid then (p.1, { p.2 with classes := p.2.classes ++ ["clicked"] }) else p) }

/-- The enhanced scraper run against the current page state. -/
def scrapeSt (st : PageState) : List String := scrapeReviewsFromPage st.hostname st.doc

/-- The `while (attempts < maxAttempts)` loop of part_002
`expandAndLoadMoreReviews`: click all "Read more" buttons of the current
snapshot, click the first eligible load-more control (marking it first), and
keep the re-scraped review set only when it is strictly larger; otherwise
stop, returning the accumulated set. -/
def expandLoop (env : Env) : Nat → PageState → List String → List ClickEv →
    PageState × List String × List ClickEv
  | 0, st, total, log => (st, total, log)
  | fuel + 1, st, total, log =>
    let ids := st.readMore.map (fun b => b.bid)
    let res1 := clickReadMores env ids st log
    match findLoadMore res1.1 with
    | none => (res1.1, total, res1.2.1)
    | some b =>
      let st3 := env (.loadMore b.bid) (markClicked res1.1 b.bid)
      let log2 := res1.2.1 ++ [.loadMore b.bid]
      let current := scrapeSt st3
      if total.length < current.length then
        expandLoop env fuel st3 current log2
      else (st3, total, log2)

/-- part_002 `expandAndLoadMoreReviews(maxAttempts = 2)`: the accumulator
starts from the pre-expansion scrape. -/
def expandAndLoadMoreReviews (env : Env) (st : PageState) (maxAttempts : Nat) :
    PageState × List String × List ClickEv :=
  expandLoop env maxAttempts st (scrapeSt st) []

/-! #### C8: size monotonicity holds, set containment does not -/

theorem expandLoop_length_mono (env : Env) (fuel : Nat) :
    ∀ (st : PageState) (total : List String) (log : List ClickEv),
      total.length ≤ (expandLoop env fuel st total log).2.1.length := by
  induction fuel with
  | zero => intro st total log; exact le_rfl
  | succ n ih =>
    intro st total log
    rw [expandLoop]
    cases hf : findLoadMore (clickReadMores env (st.readMore.map (fun b => b.bid)) st log).1 with
    | none => exact le_rfl
    | some b =>
      dsimp only
      split
      · rename_i hlt
        exact le_trans (le_of_lt hlt) (ih _ _ _)
      · exact le_rfl

/-- C8 (amended): for every page, environment and attempt budget, the review
set returned by part_002 expandAndLoadMoreReviews is never smaller than the
set extracted before expansion began; individual pre-expansion reviews may
however be absent, because the expander replaces the whole set by any
strictly larger re-scrape instead of taking a union. -/
theorem c8_expander_size_monotonic (env : Env) (st : PageState) (maxAttempts : Nat) :
    (scrapeSt st).length ≤ (expandAndLoadMoreReviews env st maxAttempts).2.1.length :=
  expandLoop_length_mono env maxAttempts st (scrapeSt st) []

/-- First Amazon review selector, used by the concrete expander documents. -/
def selRM : String := "span[data-hook=\"review-body\"]"

/-- First Amazon load-more selector. -/
def selLM : String := "[data-hook=\"see-all-reviews-link-foot\"]"

def revA : String := "AAAAAAAAAAAAAAAAAAAAAA"

def revB : String := "BBBBBBBBBBBBBBBBBBBBBB"

def revC : String := "CCCCCCCCCCCCCCCCCCCCCC"

/-- Page for the C8 counterexample: one review and one visible load-more
control. -/
def stC8 : PageState :=
  { hostname := "www.amazon.in", readMore := [],
    loadMore := [(selLM, ⟨1, "See all reviews", [], true⟩)],
    doc := [(selRM, [revA])] }

/-- Environment for the C8 counterexample: clicking the load-more control
replaces the page's review content with two new reviews (as pagination
does), dropping the original one. -/
def envC8 : Env := fun ev st =>
  match ev with
  | .loadMore 1 => { st with doc := [(selRM, [revB, revC])] }
  | _ => st

/-- C8 (counterexample): a review present before expansion began is absent
from the set the expander returns — the pass replaced the one-element set by
a larger set that no longer contains it. -/
theorem c8_counterexample :
    revA ∈ scrapeSt stC8 ∧ revA ∉ (expandAndLoadMoreReviews envC8 stC8 2).2.1 := by
  decide

/-! #### C7: read-more controls are re-clicked; load-more controls are not -/

/-- Page for the C7 counterexample: one "Read more" control and one visible
load-more control. -/
def stC7 : PageState :=
  { hostname := "www.amazon.in",
    readMore := [⟨5, "Read more", [], true⟩],
    loadMore := [(selLM, ⟨1, "See all reviews", [], true⟩)],
    doc := [(selRM, [revA])] }

/-- Environment for the C7 counterexample: the read-more click has no effect
(its text keeps saying "Read more"), while the load-more click appends one
new review, so the loop runs a second attempt. -/
def envC7 : Env := fun ev st =>
  match ev with
  | .loadMore 1 => { st with doc := [(selRM, [revA, revB])] }
  | _ => st

/-- C7 (counterexample): during a single part_002 expander pass the same
"Read more" control (element 5) is activated twice — once per attempt —
because read-more activations are tracked only by the button text, not by a
per-element marker. -/
theorem c7_counterexample :
    ((expandAndLoadMoreReviews envC7 stC7 2).2.2).count (.readMore 5) = 2 := by
  decide

/-- Every load-more entry whose button is the element `bid` carries the
`clicked` marker class. -/
def lmHasMarker (st : PageState) (bid : Nat) : Prop :=
  ∀ p ∈ st.loadMore, p.2.bid = bid → "clicked" ∈ p.2.classes

/-- The page's click reactions never strip the expander's `clicked` marker
from a load-more element (nor resurrect the element without it). -/
def PreservesMarker (env : Env) : Prop :=
  ∀ ev st bid, lmHasMarker st bid → lmHasMarker (env ev st) bid

/-- The load-more activations recorded in a click log. -/
def lmBids (log : List ClickEv) : List Nat :=
  log.filterMap (fun ev => match ev with | .loadMore b => some b | .readMore _ => none)

theorem lmBids_append (l1 l2 : List ClickEv) :
    lmBids (l1 ++ l2) = lmBids l1 ++ lmBids l2 :=
  List.filterMap_append l1 l2 _

theorem clickReadMores_inv (env : Env) (henv : PreservesMarker env) (ids : List Nat) :
    ∀ st log,
      lmBids (clickReadMores env ids st log).2.1 = lmBids log ∧
      (∀ bid, lmHasMarker st bid → lmHasMarker (clickReadMores env ids st log).1 bid) := by
  induction ids with
  | nil => exact fun st log => ⟨rfl, fun _ h => h⟩
  | cons a rest ih =>
    intro st log
    rw [clickReadMores]
    cases hfb : findButton st.readMore a with
    | none => exact ih st log
    | some b =>
      dsimp only
      split
      · have h1 := ih (env (.readMore a) st) (log ++ [.readMore a])
        refine ⟨?_, ?_⟩
        · rw [h1.1, lmBids_append]
          simp [lmBids]
        · exact fun bid hm => h1.2 bid (henv _ _ _ hm)
      · exact ih st log

theorem lmHasMarker_markClicked_self (st : PageState) (bid : Nat) :
    lmHasMarker (markClicked st bid) bid := by
  intro p hp
  simp only [markClicked, List.mem_map] at hp
  obtain ⟨q, hq, rfl⟩ := hp
  by_cases hb : q.2.bid == bid
  · intro _
    rw [if_pos hb]
    simp
  · rw [if_neg hb]
    intro hbid
    exact absurd hbid (by simpa using hb)

theorem lmHasMarker_markClicked_mono (st : PageState) (bid b' : Nat)
    (h : lmHasMarker st b') : lmHasMarker (markClicked st bid) b' := by
  intro p hp
  simp only [markClicked, List.mem_map] at hp
  obtain ⟨q, hq, rfl⟩ := hp
  by_cases hb : q.2.bid == bid
  · intro _
    rw [if_pos hb]
    simp
  · rw [if_neg hb]
    exact h q hq

theorem lookupSel_mem (lm : List (String × Button)) (sel : String) (b : Button)
    (h : lookupSel lm sel = some b) : ∃ p ∈ lm, p.2 = b := by
  induction lm with
  | nil => cases h
  | cons q rest ih =>
    by_cases hq : q.1 == sel
    · rw [lookupSel, if_pos hq] at h
      exact ⟨q, List.mem_cons_self q rest, Option.some.inj h⟩
    · rw [lookupSel, if_neg hq] at h
      obtain ⟨p, hp, hb⟩ := ih h
      exact ⟨p, List.mem_cons_of_mem q hp, hb⟩

theorem findLoadMoreAux_spec (lm : List (String × Button)) (sels : List String)
    (b : Button) (h : findLoadMoreAux lm sels = some b) :
    "clicked" ∉ b.classes ∧ ∃ p ∈ lm, p.2 = b := by
  induction sels with
  | nil => cases h
  | cons sel rest ih =>
    rw [findLoadMoreAux] at h
    cases hl : lookupSel lm sel with
    | none =>
      rw [hl] at h
      exact ih h
    | some b0 =>
      rw [hl] at h
      dsimp only at h
      by_cases hc : b0.visible && ¬ b0.classes.contains ("clicked")
      · rw [if_pos hc] at h
        injection h with h2
        subst h2
        refine ⟨?_, lookupSel_mem lm sel b0 hl⟩
        have := (Bool.and_eq_true _ _).mp hc |>.2
        simpa using this
      · rw [if_neg hc] at h
        exact ih h

/-- Invariant tying the click log to the page: load-more activations are
pairwise distinct and each activated element carries the marker. -/
def LogInv (st : PageState) (log : List ClickEv) : Prop :=
  (lmBids log).Nodup ∧ ∀ bid ∈ lmBids log, lmHasMarker st bid

theorem expandLoop_loginv (env : Env) (henv : PreservesMarker env) (fuel : Nat) :
    ∀ st total log, LogInv st log →
      (lmBids (expandLoop env fuel st total log).2.2).Nodup := by
  induction fuel with
  | zero => exact fun st total log h => h.1
  | succ n ih =>
    intro st total log h
    rw [expandLoop]
    have hcr := clickReadMores_inv env henv (st.readMore.map (fun b => b.bid)) st log
    cases hf : findLoadMore (clickReadMores env (st.readMore.map (fun b => b.bid)) st log).1 with
    | none =>
      dsimp only
      rw [hcr.1]
      exact h.1
    | some b =>
      have hfl := findLoadMoreAux_spec _ _ _ hf
      obtain ⟨p, hp, hpb⟩ := hfl.2
      have hnotin : b.bid ∉ lmBids (clickReadMores env (st.readMore.map (fun b => b.bid)) st log).2.1 := by
        rw [hcr.1]
        intro hmem
        have hmark := hcr.2 b.bid (h.2 b.bid hmem)
        exact hfl.1 (by rw [← hpb]; exact hmark p hp (by rw [hpb]))
      have hinv2 : LogInv
          (env (.loadMore b.bid)
            (markClicked (clickReadMores env (st.readMore.map (fun b => b.bid)) st log).1 b.bid))
          ((clickReadMores env (st.readMore.map (fun b => b.bid)) st log).2.1 ++ [.loadMore b.bid]) := by
        constructor
        · rw [lmBids_append]
          have : lmBids [ClickEv.loadMore b.bid] = [b.bid] := rfl
          rw [this]
          simp only [List.nodup_append, List.nodup_singleton, true_and]
          refine ⟨by rw [hcr.1]; exact h.1, ?_⟩
          intro x hx hx1
          simp only [List.mem_singleton] at hx1
          subst hx1
          exact hnotin hx
        · intro bid hbid
          rw [lmBids_append] at hbid
          simp only [List.mem_append] at hbid
          rcases hbid with hbid | hbid
          · rw [hcr.1] at hbid
            exact henv _ _ _ (lmHasMarker_markClicked_mono _ b.bid bid (hcr.2 bid (h.2 bid hbid)))
          · have : bid = b.bid := by simpa [lmBids] using hbid
            subst this
            exact henv _ _ _ (lmHasMarker_markClicked_self _ _)
      dsimp only
      split
      · exact ih _ _ _ hinv2
      · exact hinv2.1

/-- C7 (amended): in every single part_002 expander pass, against any page
whose click reactions never remove the expander's `clicked` marker, each
load-more/pagination control is activated at most once (the recorded
load-more activations are pairwise distinct elements), enforced by the
per-element `clicked` class marker; read-more controls have no such marker
in part_002 and may be re-activated on each attempt, as the counterexample
shows. -/
theorem c7_load_more_once (env : Env) (st : PageState) (maxAttempts : Nat)
    (henv : PreservesMarker env) :
    (lmBids (expandAndLoadMoreReviews env st maxAttempts).2.2).Nodup :=
  expandLoop_loginv env henv maxAttempts st (scrapeSt st) []
    ⟨List.nodup_nil, by simp [lmBids]⟩

/-- Environment that reacts to no click at all. -/
def idEnv : Env := fun _ st => st

/-- C7 witness: the at-most-once theorem applied to a concrete page with an
inert environment, which trivially preserves markers. -/
theorem c7_witness :
    (lmBids (expandAndLoadMoreReviews idEnv stC7 2).2.2).Nodup :=
  c7_load_more_once idEnv stC7 2 (fun _ _ _ h => h)

end Revuze
